import Mathlib

/-! tnvme: the test lifecycle, the register health monitor and one command exchange

A shallow embedding of `src/test.cpp` (class `Test`) and of
`src/GrpNVMWriteCmd/lbaOutOfRangeMeta_r10b.cpp` (class `LBAOutOfRangeMeta_r10b`).

Conventions of the embedding:

* `uint64_t`, `uint32_t` and `uint16_t` values are natural numbers, reduced modulo
  `2 ^ 64`, `2 ^ 32`, `2 ^ 16` where the C++ arithmetic wraps;
* a member function that talks to the hardware returns, next to its result, the
  list of the observable events it caused, in program order;
* a `for` loop driven by a `uint16_t` index is a recursion with fuel: one unit of
  fuel is one evaluation of the loop condition, and `none` means the fuel ran out.
-/

namespace Tnvme

/-! ## Machine integers -/

/-- Number of values of a `uint64_t`. -/
def UINT64_SIZE : Nat := 2 ^ 64

/-- Number of values of a `uint32_t`. -/
def UINT32_SIZE : Nat := 2 ^ 32

/-- Number of values of a `uint16_t`. -/
def UINT16_SIZE : Nat := 2 ^ 16

/-- The constant `INT_MAX` of a 32-bit `int`. -/
def INT_MAX : Nat := 2147483647

/-- The conversion `(uint64_t)x` of an unsigned value. -/
def toU64 (x : Nat) : Nat := x % UINT64_SIZE

/-- The conversion of a (signed) `int` to `uint64_t`: reduction modulo `2 ^ 64`,
which sign-extends a negative value. -/
def intToU64 (x : Int) : Nat := (x % (UINT64_SIZE : Int)).toNat

/-- The operator `~` on a `uint64_t`. -/
def not64 (x : Nat) : Nat := UINT64_SIZE - 1 - x % UINT64_SIZE

/-! ## Registers, capabilities and events -/

/-- The registers `Test` touches: three of the PCI space, one of the controller
space. -/
inductive Reg where
  | PCISPC_STS
  | PCISPC_PXDS
  | PCISPC_AERUCES
  | CTLSPC_CSTS
  deriving DecidableEq, Repr

/-- The PCI capabilities the device reports.  `Test` tells `PCICAP_PXCAP` and
`PCICAP_AERCAP` apart from all the others, which are kept by their number. -/
inductive PciCapabilities where
  | PCICAP_PXCAP
  | PCICAP_AERCAP
  | PCICAP_OTHER (id : Nat)
  deriving DecidableEq, Repr

/-- The member `mErrRegs`: one bit mask per monitored register. -/
structure ErrorRegs where
  sts : Nat
  pxds : Nat
  aeruces : Nat
  csts : Nat
  deriving DecidableEq, Repr

/-- What `Test` does that can be seen from outside. -/
inductive Event where
  /-- The call `gRegisters->Write(reg, value)`. -/
  | Write (reg : Reg) (value : Nat)
  /-- The call `gRegisters->Read(reg, value)`. -/
  | Read (reg : Reg)
  /-- The message `"%s error bit #%d indicates test failure"`, with the register
  whose description is printed and the bit number. -/
  | LOG_ERR_bit (desc : Reg) (bit : Nat)
  /-- The call `KernelAPI::DumpKernelMetrics(FileSystem::PrepDumpFile(..))`. -/
  | DumpKernelMetrics
  /-- The call of the virtual `RunCoreTest()`. -/
  | RunCoreTest
  /-- The message `"Failed test: %s"`. -/
  | LOG_NRM_failed
  /-- The banner `"Unsupp'd exception, replace with \"throw FrmwkEx\""`. -/
  | LOG_ERR_unsupported
  /-- The message `"SUCCESSFUL test case run"`. -/
  | LOG_NRM_successful
  deriving DecidableEq, Repr

/-- The register file as `gRegisters->Read` sees it during one call of
`GetStatusRegErrors`, in which the registers hold still: `none` when the read
fails (`Read` returns `false`), the value otherwise. -/
abbrev Registers := Reg → Option Nat

/-- The call `gRegisters->Read(reg, value)`: the value lands in a `uint64_t`. -/
def Read (regs : Registers) (reg : Reg) : Option Nat :=
  (regs reg).map toU64

/-! ## `Test::ReportOffendingBitPos` -/

/-- The expression `(1 << i)`, computed in `int` (32 bits): `2 ^ i` below bit 31,
`INT_MIN` at `i = 31` (the shift into the sign bit, as GCC evaluates it), and for
`i >= 32`, where C++ leaves the shift undefined, whatever `int` the machine
yields, given by `undef`. -/
def shiftOne (undef : Nat → Int) (i : Nat) : Int :=
  if i < 31 then 2 ^ i else if i = 31 then -(2 ^ 31) else undef i

/-- The assignment `bitMask = (1 << i)`: the `int` is converted to `uint64_t`. -/
def bitMask (undef : Nat → Int) (i : Nat) : Nat :=
  intToU64 (shiftOne undef i)

/-- The loop of `ReportOffendingBitPos`, with `n` iterations left and the index
at `i`. -/
def ReportOffendingBitPos.scan (undef : Nat → Int) (val expectedVal : Nat) :
    Nat → Nat → Nat
  | 0, _ => INT_MAX
  | n + 1, i =>
    if (val &&& bitMask undef i) ≠ (expectedVal &&& bitMask undef i) then i
    else ReportOffendingBitPos.scan undef val expectedVal n (i + 1)

/-- The function `Test::ReportOffendingBitPos(val, expectedVal)`: `i` runs from 0
to `sizeof(uint64_t)*8 - 1`. -/
def ReportOffendingBitPos (undef : Nat → Int) (val expectedVal : Nat) : Nat :=
  ReportOffendingBitPos.scan undef val expectedVal 64 0

/-- The machine most builds run on: x86 takes the shift count modulo 32. -/
def x86Shift (i : Nat) : Int := 2 ^ (i % 32)

/-! ## `Test::ResetStatusRegErrors` -/

/-- The `for` loop of `ResetStatusRegErrors`, entered at its condition with the
`uint16_t` index at `i`; the result is the list of writes from there on. -/
def ResetStatusRegErrors.loop (cap : List PciCapabilities) :
    Nat → Nat → Option (List Event)
  | 0, _ => none
  | fuel + 1, i =>
    if h : i < cap.length then
      match cap[i] with
      | PciCapabilities.PCICAP_PXCAP =>
        (ResetStatusRegErrors.loop cap fuel ((i + 1) % UINT16_SIZE)).map
          (fun t => Event.Write Reg.PCISPC_PXDS 0xffff :: t)
      | PciCapabilities.PCICAP_AERCAP =>
        (ResetStatusRegErrors.loop cap fuel ((i + 1) % UINT16_SIZE)).map
          (fun t => Event.Write Reg.PCISPC_AERUCES 0xffffffff :: t)
      | PciCapabilities.PCICAP_OTHER _ =>
        ResetStatusRegErrors.loop cap fuel ((i + 1) % UINT16_SIZE)
    else some []

/-- The function `Test::ResetStatusRegErrors()`, over the capability list that
`gRegisters->GetPciCapabilities()` returns: the writes it performs. -/
def ResetStatusRegErrors (cap : List PciCapabilities) (fuel : Nat) :
    Option (List Event) :=
  (ResetStatusRegErrors.loop cap fuel 0).map
    (fun t => Event.Write Reg.PCISPC_STS 0xffff :: t)

/-! ## `Test::GetStatusRegErrors` -/

/-- The block `GetStatusRegErrors` repeats for each register: read `reg`, clear
the bits of `mask` in the value, compare, and report the offending bit under the
description of `desc`.  The boolean is `false` when the block executes
`return false`, and `true` when control goes on to the next statement. -/
def checkStatusReg (undef : Nat → Int) (regs : Registers) (reg desc : Reg)
    (mask : Nat) : Bool × List Event :=
  match Read regs reg with
  | none => (false, [Event.Read reg])
  | some value =>
    let expectedValue := value &&& not64 (toU64 mask)
    if value ≠ expectedValue then
      (false, [Event.Read reg,
        Event.LOG_ERR_bit desc (ReportOffendingBitPos undef value expectedValue)])
    else (true, [Event.Read reg])

/-- Sequencing of one block with the rest of the function: the rest runs only
when the block did not return. -/
def andThen (blk : Bool × List Event) (rest : Option (Bool × List Event)) :
    Option (Bool × List Event) :=
  if blk.1 then rest.map (fun r => (r.1, blk.2 ++ r.2)) else some (false, blk.2)

/-- The `for` loop of `GetStatusRegErrors` and what follows it, entered at the
loop condition with the `uint16_t` index at `i`. -/
def GetStatusRegErrors.loop (undef : Nat → Int) (regs : Registers)
    (mErrRegs : ErrorRegs) (cap : List PciCapabilities) :
    Nat → Nat → Option (Bool × List Event)
  | 0, _ => none
  | fuel + 1, i =>
    if h : i < cap.length then
      match cap[i] with
      | PciCapabilities.PCICAP_PXCAP =>
        andThen
          (checkStatusReg undef regs Reg.PCISPC_PXDS Reg.PCISPC_PXDS mErrRegs.pxds)
          (GetStatusRegErrors.loop undef regs mErrRegs cap fuel
            ((i + 1) % UINT16_SIZE))
      | PciCapabilities.PCICAP_AERCAP =>
        andThen
          (checkStatusReg undef regs Reg.PCISPC_AERUCES Reg.PCISPC_PXDS
            mErrRegs.aeruces)
          (GetStatusRegErrors.loop undef regs mErrRegs cap fuel
            ((i + 1) % UINT16_SIZE))
      | PciCapabilities.PCICAP_OTHER _ =>
        GetStatusRegErrors.loop undef regs mErrRegs cap fuel ((i + 1) % UINT16_SIZE)
    else
      some (checkStatusReg undef regs Reg.CTLSPC_CSTS Reg.CTLSPC_CSTS mErrRegs.csts)

/-- The function `Test::GetStatusRegErrors()`: its result and the register
accesses and messages it causes. -/
def GetStatusRegErrors (undef : Nat → Int) (regs : Registers)
    (mErrRegs : ErrorRegs) (cap : List PciCapabilities) (fuel : Nat) :
    Option (Bool × List Event) :=
  andThen (checkStatusReg undef regs Reg.PCISPC_STS Reg.PCISPC_STS mErrRegs.sts)
    (GetStatusRegErrors.loop undef regs mErrRegs cap fuel 0)

/-- The boolean `GetStatusRegErrors` returns, without the events. -/
def GetStatusRegErrors.result (undef : Nat → Int) (regs : Registers)
    (mErrRegs : ErrorRegs) (cap : List PciCapabilities) (fuel : Nat) :
    Option Bool :=
  (GetStatusRegErrors undef regs mErrRegs cap fuel).map Prod.fst

/-! ### The statement of the register check -/

/-- The mask `mErrRegs` holds for a register. -/
def maskOf (mErrRegs : ErrorRegs) : Reg → Nat
  | Reg.PCISPC_STS => mErrRegs.sts
  | Reg.PCISPC_PXDS => mErrRegs.pxds
  | Reg.PCISPC_AERUCES => mErrRegs.aeruces
  | Reg.CTLSPC_CSTS => mErrRegs.csts

/-- The registers the check monitors under a capability list: `PCISPC_STS` and
`CTLSPC_CSTS` always, `PCISPC_PXDS` when `PCICAP_PXCAP` is reported,
`PCISPC_AERUCES` when `PCICAP_AERCAP` is reported. -/
def Monitored (cap : List PciCapabilities) : Reg → Prop
  | Reg.PCISPC_STS => True
  | Reg.PCISPC_PXDS => PciCapabilities.PCICAP_PXCAP ∈ cap
  | Reg.PCISPC_AERUCES => PciCapabilities.PCICAP_AERCAP ∈ cap
  | Reg.CTLSPC_CSTS => True

/-- A register offends when its read fails or when the value `V` read has
`(V & ~M) != V` for the register's mask `M`. -/
def Offends (regs : Registers) (mErrRegs : ErrorRegs) (reg : Reg) : Prop :=
  match Read regs reg with
  | none => True
  | some V => V &&& not64 (toU64 (maskOf mErrRegs reg)) ≠ V

/-! ## `Test::Run` -/

/-- What a call can throw: the harness's own `FrmwkEx`, or anything else. -/
inductive Thrown where
  | FrmwkEx
  | other
  deriving DecidableEq, Repr

/-- The `try` block of `Run`.  `dumpKernelMetrics` and `runCoreTest` say how the
two calls that are not code of `Test` end: `none` when the call returns, `some e`
when it throws `e`.  The result is `Except.error e` when `e` leaves the block,
`Except.ok (some b)` when the block executes `return b`, and `Except.ok none` when
control reaches the end of the block. -/
def Run.tryBlock (undef : Nat → Int) (regs : Registers) (mErrRegs : ErrorRegs)
    (cap : List PciCapabilities) (dumpKernelMetrics runCoreTest : Option Thrown)
    (fuel : Nat) : Option (Except Thrown (Option Bool) × List Event) :=
  match ResetStatusRegErrors cap fuel with
  | none => none
  | some tReset =>
    match dumpKernelMetrics with
    | some e => some (Except.error e, tReset ++ [Event.DumpKernelMetrics])
    | none =>
      match runCoreTest with
      | some e =>
        some (Except.error e, tReset ++ [Event.DumpKernelMetrics, Event.RunCoreTest])
      | none =>
        match GetStatusRegErrors undef regs mErrRegs cap fuel with
        | none => none
        | some (b, tGet) =>
          if b = false then
            some (Except.ok (some false),
              tReset ++ [Event.DumpKernelMetrics, Event.RunCoreTest] ++ tGet ++
                [Event.LOG_NRM_failed])
          else
            some (Except.ok none,
              tReset ++ [Event.DumpKernelMetrics, Event.RunCoreTest] ++ tGet)

/-- The function `Test::Run()`: the `try` block, the two handlers and the tail of
the function.  `Except.error` in the result would be an exception that leaves
`Run`. -/
def Run (undef : Nat → Int) (regs : Registers) (mErrRegs : ErrorRegs)
    (cap : List PciCapabilities) (dumpKernelMetrics runCoreTest : Option Thrown)
    (fuel : Nat) : Option (Except Thrown Bool × List Event) :=
  match Run.tryBlock undef regs mErrRegs cap dumpKernelMetrics runCoreTest fuel with
  | none => none
  | some (Except.ok (some b), t) => some (Except.ok b, t)
  | some (Except.ok none, t) => some (Except.ok true, t ++ [Event.LOG_NRM_successful])
  | some (Except.error Thrown.FrmwkEx, t) =>
    some (Except.ok false, t ++ [Event.LOG_NRM_failed])
  | some (Except.error Thrown.other, t) =>
    some (Except.ok false, t ++ [Event.LOG_ERR_unsupported, Event.LOG_NRM_failed])

/-! ## `LBAOutOfRangeMeta_r10b::SendCmdToHdw` -/

/-- The status codes of a completion entry, as far as this test tells them
apart. -/
inductive CEStat where
  | CESTAT_SUCCESS
  | CESTAT_LBA_OUT_RANGE
  | CESTAT_OTHER (code : Nat)
  deriving DecidableEq, Repr

/-- The calls `SendCmdToHdw` makes on the two queues and the controller. -/
inductive QEvent where
  /-- The call `cq->ReapInquiry(isrCountB4, true)`. -/
  | ReapInquiry
  /-- The call `sq->Send(cmd, uniqueId)`. -/
  | Send
  /-- The call `sq->Dump(..)`. -/
  | DumpSQ
  /-- The call `sq->Ring()`. -/
  | Ring
  /-- The call `cq->ReapInquiryWaitSpecify(DEFAULT_CMD_WAIT_ms, 1, numCE, isrCount)`. -/
  | ReapInquiryWaitSpecify
  /-- The call `cq->Dump(..)`. -/
  | DumpCQ
  /-- The call `IO::ReapCE(..)`. -/
  | ReapCE
  /-- The evaluation of `gCtrlrConfig->IrqsEnabled() && cq->GetIrqEnabled() && ..`. -/
  | IrqCheck
  deriving DecidableEq, Repr

/-- What the hardware and the queue objects answer during one call of
`SendCmdToHdw`. -/
structure Exchange where
  /-- The value `cq->ReapInquiry` returns at entry. -/
  numCE0 : Nat
  /-- The interrupt count `cq->ReapInquiry` stores at entry. -/
  isrCountB4 : Nat
  /-- The value `cq->ReapInquiryWaitSpecify` returns. -/
  waitOk : Bool
  /-- The number of entries `cq->ReapInquiryWaitSpecify` stores. -/
  numCE : Nat
  /-- The interrupt count `cq->ReapInquiryWaitSpecify` stores. -/
  isrCount : Nat
  /-- The status of the completion entry that `IO::ReapCE` reaps. -/
  ceStatus : CEStat
  /-- The value of `gCtrlrConfig->IrqsEnabled()`. -/
  IrqsEnabled : Bool
  /-- The value of `cq->GetIrqEnabled()`. -/
  GetIrqEnabled : Bool
  deriving DecidableEq, Repr

/-- Modelled from the spec: `IO::ReapCE` is defined in `Utils/io.cpp`, which is
not among the sources.  Per the spec it reaps the single completion entry and
compares its status code to the expected status; a mismatch fails.  `true` when
it returns, `false` when it throws `FrmwkEx`. -/
def ReapCE (ceStatus expected : CEStat) : Bool :=
  decide (ceStatus = expected)

/-- The function `LBAOutOfRangeMeta_r10b::SendCmdToHdw(sq, cq, cmd, qualify)`:
`Except.ok ()` when it returns, `Except.error Thrown.FrmwkEx` when it throws, and
the calls made up to there.  The three counters are `uint32_t`. -/
def SendCmdToHdw (x : Exchange) : Except Thrown Unit × List QEvent :=
  if x.numCE0 ≠ 0 then
    (Except.error Thrown.FrmwkEx, [QEvent.ReapInquiry, QEvent.DumpCQ])
  else if x.waitOk = false then
    (Except.error Thrown.FrmwkEx,
      [QEvent.ReapInquiry, QEvent.Send, QEvent.DumpSQ, QEvent.Ring,
        QEvent.ReapInquiryWaitSpecify, QEvent.DumpCQ])
  else if x.numCE ≠ 1 then
    (Except.error Thrown.FrmwkEx,
      [QEvent.ReapInquiry, QEvent.Send, QEvent.DumpSQ, QEvent.Ring,
        QEvent.ReapInquiryWaitSpecify, QEvent.DumpCQ])
  else if ReapCE x.ceStatus CEStat.CESTAT_LBA_OUT_RANGE = false then
    (Except.error Thrown.FrmwkEx,
      [QEvent.ReapInquiry, QEvent.Send, QEvent.DumpSQ, QEvent.Ring,
        QEvent.ReapInquiryWaitSpecify, QEvent.DumpCQ, QEvent.ReapCE])
  else if x.IrqsEnabled && x.GetIrqEnabled &&
      decide (x.isrCount ≠ (x.isrCountB4 + 1) % UINT32_SIZE) then
    (Except.error Thrown.FrmwkEx,
      [QEvent.ReapInquiry, QEvent.Send, QEvent.DumpSQ, QEvent.Ring,
        QEvent.ReapInquiryWaitSpecify, QEvent.DumpCQ, QEvent.ReapCE,
        QEvent.IrqCheck])
  else
    (Except.ok (),
      [QEvent.ReapInquiry, QEvent.Send, QEvent.DumpSQ, QEvent.Ring,
        QEvent.ReapInquiryWaitSpecify, QEvent.DumpCQ, QEvent.ReapCE,
        QEvent.IrqCheck])

/-- The order of the calls in the body of `SendCmdToHdw`, as the claim lists it:
inquiry, enqueue, submission-queue dump, doorbell, bounded wait, completion-queue
dump, reap, IRQ check. -/
def exchangeOrder : List QEvent :=
  [QEvent.ReapInquiry, QEvent.Send, QEvent.DumpSQ, QEvent.Ring,
    QEvent.ReapInquiryWaitSpecify, QEvent.DumpCQ, QEvent.ReapCE, QEvent.IrqCheck]

/-- In the trace `t`, every occurrence of `b` has an occurrence of `a` before
it. -/
def Precedes (a b : QEvent) (t : List QEvent) : Prop :=
  ∀ k : Nat, t[k]? = some b → ∃ j : Nat, j < k ∧ t[j]? = some a

/-! ## `LBAOutOfRangeMeta_r10b::CreateIOQs` -/

/-- The calls `CreateIOQs` makes. -/
inductive ProvEvent where
  /-- The call `gCtrlrConfig->SetIOCQES(value)`. -/
  | SetIOCQES (value : Nat)
  /-- The call `gCtrlrConfig->SetIOSQES(value)`. -/
  | SetIOSQES (value : Nat)
  /-- The call `InitOffset1stPage(bufSize, 0, true)` on a fresh `MemBuffer`. -/
  | InitOffset1stPage (bufSize : Nat) (offset1stPg : Nat) (initMem : Bool)
  /-- The call `Queues::CreateIOCQDiscontigToHdw(.., ioqId, numEntries, false,
  IOCQ_GROUP_ID, irqEnabled, irqVec, qBackedMem)`, the memory given by its size. -/
  | CreateIOCQDiscontigToHdw (qId numEntries : Nat) (irqEnabled : Bool)
      (irqVec : Nat) (qBackedMem : Nat)
  /-- The call `Queues::CreateIOSQDiscontigToHdw(.., ioqId, numEntries, false,
  IOSQ_GROUP_ID, cqId, priority, qBackedMem)`, the memory given by its size. -/
  | CreateIOSQDiscontigToHdw (qId numEntries : Nat) (cqId : Nat) (priority : Nat)
      (qBackedMem : Nat)
  /-- The call `Queues::CreateIOCQContigToHdw(.., ioqId, numEntries, false,
  IOCQ_GROUP_ID, irqEnabled, irqVec)`. -/
  | CreateIOCQContigToHdw (qId numEntries : Nat) (irqEnabled : Bool) (irqVec : Nat)
  /-- The call `Queues::CreateIOSQContigToHdw(.., ioqId, numEntries, false,
  IOSQ_GROUP_ID, cqId, priority)`. -/
  | CreateIOSQContigToHdw (qId numEntries : Nat) (cqId : Nat) (priority : Nat)
  deriving DecidableEq, Repr

/-- The function `LBAOutOfRangeMeta_r10b::CreateIOQs(asq, acq, ioqId, iosq, iocq)`.
`supportDiscontigIOQ` is the value of `Queues::SupportDiscontigIOQ()`, `cqes` and
`sqes` are the values `GetValue(IDCTRLRCAP_CQES)` and `GetValue(IDCTRLRCAP_SQES)`
return; the sizes are `uint32_t`. -/
def CreateIOQs (supportDiscontigIOQ : Bool) (cqes sqes : Nat) (ioqId : Nat) :
    List ProvEvent :=
  let numEntries := 2
  let setES := [ProvEvent.SetIOCQES (cqes &&& 0xf), ProvEvent.SetIOSQES (sqes &&& 0xf)]
  if supportDiscontigIOQ = true then
    let iocqes := cqes &&& 0xf
    let iosqes := sqes &&& 0xf
    let iocqBackedMem := (numEntries * 2 ^ iocqes) % UINT32_SIZE
    let iosqBackedMem := (numEntries * 2 ^ iosqes) % UINT32_SIZE
    setES ++
      [ProvEvent.InitOffset1stPage iocqBackedMem 0 true,
        ProvEvent.CreateIOCQDiscontigToHdw ioqId numEntries true 0 iocqBackedMem,
        ProvEvent.InitOffset1stPage iosqBackedMem 0 true,
        ProvEvent.CreateIOSQDiscontigToHdw ioqId numEntries ioqId 0 iosqBackedMem]
  else
    setES ++
      [ProvEvent.CreateIOCQContigToHdw ioqId numEntries true 0,
        ProvEvent.CreateIOSQContigToHdw ioqId numEntries ioqId 0]

/-- The queue creations among the calls of `CreateIOQs`. -/
def isCreation : ProvEvent → Bool
  | ProvEvent.CreateIOCQDiscontigToHdw _ _ _ _ _ => true
  | ProvEvent.CreateIOSQDiscontigToHdw _ _ _ _ _ => true
  | ProvEvent.CreateIOCQContigToHdw _ _ _ _ => true
  | ProvEvent.CreateIOSQContigToHdw _ _ _ _ => true
  | _ => false

/-- The writes the baseline reset owes to one reported capability: all-ones to
`PCISPC_PXDS` for `PCICAP_PXCAP`, all-ones to `PCISPC_AERUCES` for
`PCICAP_AERCAP`, nothing for any other capability. -/
def capWrites : PciCapabilities → List Event
  | PciCapabilities.PCICAP_PXCAP => [Event.Write Reg.PCISPC_PXDS 0xffff]
  | PciCapabilities.PCICAP_AERCAP => [Event.Write Reg.PCISPC_AERUCES 0xffffffff]
  | PciCapabilities.PCICAP_OTHER _ => []

/-- A register file for the examples: `PCISPC_STS` reads 1, every other register
reads 0. -/
def regsStsOne : Registers
  | Reg.PCISPC_STS => some 1
  | _ => some 0

/-- A register file for the examples: every register reads 0. -/
def regsZero : Registers := fun _ => some 0

/-! ## `LBAOutOfRangeMeta_r10b::RunCoreTest` -/

/-- The macro `WR_NUM_BLKS`. -/
def WR_NUM_BLKS : Nat := 2

/-- The operator `-` on `uint64_t` values. -/
def subU64 (a b : Nat) : Nat :=
  (a % UINT64_SIZE + UINT64_SIZE - b % UINT64_SIZE) % UINT64_SIZE

/-- The fields of `writeCmd` that the loop body of `RunCoreTest` sets with
`SetNSID`, `SetNLB` and `SetSLBA`, as they stand when the command is sent.  `NLB`
is the 0-based field, so the command covers `NLB + 1` blocks from `SLBA` on. -/
structure WriteCmd where
  NSID : Nat
  NLB : Nat
  SLBA : Nat
  deriving DecidableEq, Repr

/-- The two ways `RunCoreTest` sends `writeCmd`. -/
inductive IOCall where
  /-- The call `SendCmdToHdw(iosq, iocq, writeCmd, work)`. -/
  | SendCmdToHdw (cmd : WriteCmd)
  /-- The call `IO::SendAndReapCmd(mGrpName, mTestName, DEFAULT_CMD_WAIT_ms, iosq,
  iocq, writeCmd, work, true)`. -/
  | SendAndReapCmd (cmd : WriteCmd)
  deriving DecidableEq, Repr

/-- The command of a call. -/
def IOCall.cmd : IOCall → WriteCmd
  | IOCall.SendCmdToHdw c => c
  | IOCall.SendAndReapCmd c => c

/-- The completion status a call expects: `SendCmdToHdw` hands
`CESTAT_LBA_OUT_RANGE` to `IO::ReapCE`; `IO::SendAndReapCmd`, which is defined in
`Utils/io.cpp` and not among the sources, is called without a status and, as the
test description says ("expect success"), expects `CESTAT_SUCCESS`. -/
def IOCall.expected : IOCall → CEStat
  | IOCall.SendCmdToHdw _ => CEStat.CESTAT_LBA_OUT_RANGE
  | IOCall.SendAndReapCmd _ => CEStat.CESTAT_SUCCESS

/-- The end of the loop body of `RunCoreTest` for the namespace `nsid` of size
`nsze` (a `uint64_t`), from `writeCmd->SetNSID(meta[i])` on: the three sends.
`x1` and `x2` are what the hardware answers during the two calls of
`SendCmdToHdw`, `sendAndReapCmd` says how `IO::SendAndReapCmd` ends (`none` when
it returns).  The result is how the loop body ends and the calls made. -/
def RunCoreTest.sendWrites (nsid nsze : Nat) (x1 x2 : Exchange)
    (sendAndReapCmd : Option Thrown) : Except Thrown Unit × List IOCall :=
  let NLB := WR_NUM_BLKS - 1
  let call1 := IOCall.SendCmdToHdw ⟨nsid, NLB, subU64 nsze 1⟩
  let call2 := IOCall.SendCmdToHdw ⟨nsid, NLB, toU64 nsze⟩
  let call3 := IOCall.SendAndReapCmd ⟨nsid, NLB, subU64 nsze 2⟩
  match (SendCmdToHdw x1).1 with
  | Except.error e => (Except.error e, [call1])
  | Except.ok _ =>
    match (SendCmdToHdw x2).1 with
    | Except.error e => (Except.error e, [call1, call2])
    | Except.ok _ =>
      match sendAndReapCmd with
      | some e => (Except.error e, [call1, call2, call3])
      | none => (Except.ok (), [call1, call2, call3])

/-- An exchange for the examples in which `SendCmdToHdw` returns: the queue is
empty at entry, one entry arrives with the status `CESTAT_LBA_OUT_RANGE`, and the
interrupt count goes from 0 to 1. -/
def exchangeOk : Exchange :=
  ⟨0, 0, true, 1, 1, CEStat.CESTAT_LBA_OUT_RANGE, true, true⟩

/-! ## Theorems -/

/-! ### `ReportOffendingBitPos` -/

theorem ReportOffendingBitPos.scan_self (undef : Nat → Int) (a : Nat) :
    ∀ n i, ReportOffendingBitPos.scan undef a a n i = INT_MAX := by
  intro n
  induction n with
  | zero => intro i; rfl
  | succ n ih => intro i; simp [ReportOffendingBitPos.scan, ih]

/-- C4: `ReportOffendingBitPos(a, a)` is the sentinel `INT_MAX` for every value
`a`, whatever the machine yields for the undefined shifts. -/
theorem ReportOffendingBitPos_self (undef : Nat → Int) (a : Nat) :
    ReportOffendingBitPos undef a a = INT_MAX :=
  ReportOffendingBitPos.scan_self undef a 64 0

/-- C3 (defect of the code): for `a = 2 ^ 32` and `b = 0` the lowest differing
bit is bit 32 (bits 0 to 31 agree, bit 32 differs), yet `ReportOffendingBitPos`
returns 31, whatever the machine yields for the undefined shifts: the mask of
iteration 31 is `INT_MIN` converted to `uint64_t`, which covers bits 31 to 63. -/
theorem ReportOffendingBitPos_bit32 (undef : Nat → Int) :
    ReportOffendingBitPos undef (2 ^ 32) 0 = 31 ∧
      (∀ j, j < 32 → (2 ^ 32).testBit j = (0 : Nat).testBit j) ∧
      (2 ^ 32).testBit 32 ≠ (0 : Nat).testBit 32 := by
  refine ⟨?_, ?_, by decide⟩
  · simp +decide [ReportOffendingBitPos, ReportOffendingBitPos.scan, bitMask, shiftOne,
      intToU64, UINT64_SIZE]
  intro j hj
  rw [Nat.testBit_two_pow]
  simp
  omega

theorem bitMask_low (undef : Nat → Int) (i : Nat) (hi : i < 31) :
    bitMask undef i = 2 ^ i := by
  unfold bitMask shiftOne intToU64
  rw [if_pos hi]
  have h1 : ((2 : Int) ^ i) = ((2 ^ i : Nat) : Int) := by push_cast; rfl
  have h2 : (2 : Nat) ^ i < UINT64_SIZE := by
    unfold UINT64_SIZE
    exact Nat.pow_lt_pow_right (by decide) (by omega)
  rw [h1, ← Int.natCast_mod, Int.toNat_natCast, Nat.mod_eq_of_lt h2]

theorem bitMask_31 (undef : Nat → Int) : bitMask undef 31 = 2 ^ 64 - 2 ^ 31 := by
  simp +decide [bitMask, shiftOne, intToU64, UINT64_SIZE]

theorem land_two_pow_eq_iff (a b i : Nat) :
    a &&& 2 ^ i = b &&& 2 ^ i ↔ a.testBit i = b.testBit i := by
  rw [Nat.and_two_pow, Nat.and_two_pow]
  have hpos : 0 < 2 ^ i := Nat.pow_pos (by decide)
  cases ha : a.testBit i <;> cases hb : b.testBit i <;> simp
  all_goals omega

theorem testBit_highMask (k : Nat) :
    (2 ^ 64 - 2 ^ 31 : Nat).testBit k = (decide (31 ≤ k) && decide (k < 64)) := by
  have h := Nat.testBit_two_pow_sub_succ (x := 2 ^ 31 - 1) (n := 64) (by decide) k
  have he : (2 ^ 64 - 2 ^ 31 : Nat) = 2 ^ 64 - (2 ^ 31 - 1 + 1) := by decide
  rw [he, h, Nat.testBit_two_pow_sub_one]
  by_cases h1 : k < 31 <;> by_cases h2 : k < 64 <;> simp [h1, h2]
  all_goals omega

theorem land_highMask_ne (a b k : Nat) (hk : 31 ≤ k) (hk64 : k < 64)
    (hdiff : a.testBit k ≠ b.testBit k) :
    a &&& (2 ^ 64 - 2 ^ 31) ≠ b &&& (2 ^ 64 - 2 ^ 31) := by
  intro h
  have h2 := congrArg (fun x => x.testBit k) h
  simp only [Nat.testBit_and, testBit_highMask, hk, hk64, decide_True, Bool.and_self,
    Bool.and_true] at h2
  exact hdiff h2

theorem ReportOffendingBitPos.scan_eq (undef : Nat → Int) (a b k : Nat)
    (hk64 : k < 64) (hdiff : a.testBit k ≠ b.testBit k)
    (hlow : ∀ j, j < k → a.testBit j = b.testBit j) :
    ∀ n i, i ≤ min k 31 → min k 31 < i + n →
      ReportOffendingBitPos.scan undef a b n i = min k 31 := by
  intro n
  induction n with
  | zero => intro i h1 h2; omega
  | succ n ih =>
    intro i h1 h2
    unfold ReportOffendingBitPos.scan
    by_cases hi : i = min k 31
    · have hne : a &&& bitMask undef i ≠ b &&& bitMask undef i := by
        by_cases hk : k < 31
        · have hik : i = k := by omega
          rw [hik, bitMask_low undef k hk]
          exact fun h => hdiff ((land_two_pow_eq_iff a b k).mp h)
        · have hik : i = 31 := by omega
          rw [hik, bitMask_31]
          exact land_highMask_ne a b k (by omega) hk64 hdiff
      rw [if_pos hne, hi]
    · have hi31 : i < 31 := by omega
      have hik : i < k := by omega
      have heq : a &&& bitMask undef i = b &&& bitMask undef i := by
        rw [bitMask_low undef i hi31]
        exact (land_two_pow_eq_iff a b i).mpr (hlow i hik)
      rw [if_neg (not_not.mpr heq)]
      exact ih (i + 1) (by omega) (by omega)

theorem ReportOffendingBitPos_eq_min (undef : Nat → Int) (a b k : Nat)
    (hk64 : k < 64) (hdiff : a.testBit k ≠ b.testBit k)
    (hlow : ∀ j, j < k → a.testBit j = b.testBit j) :
    ReportOffendingBitPos undef a b = min k 31 :=
  ReportOffendingBitPos.scan_eq undef a b k hk64 hdiff hlow 64 0 (Nat.zero_le _)
    (by omega)

/-! ### `ResetStatusRegErrors` -/

theorem ResetStatusRegErrors.loop_eq (cap : List PciCapabilities)
    (hcap : cap.length < UINT16_SIZE) :
    ∀ fuel i, i ≤ cap.length → cap.length - i < fuel →
      ResetStatusRegErrors.loop cap fuel i = some ((cap.drop i).flatMap capWrites) := by
  intro fuel
  induction fuel with
  | zero => intro i _ h; omega
  | succ fuel ih =>
    intro i hi hfuel
    unfold ResetStatusRegErrors.loop
    by_cases h : i < cap.length
    · have hmod : (i + 1) % UINT16_SIZE = i + 1 := Nat.mod_eq_of_lt (by omega)
      have hdrop : cap.drop i = cap[i] :: cap.drop (i + 1) := List.drop_eq_getElem_cons h
      have hrec := ih (i + 1) (by omega) (by omega)
      rw [dif_pos h, hmod, hrec, hdrop]
      cases cap[i] <;> simp [capWrites]
    · have hi2 : cap.length ≤ i := by omega
      rw [dif_neg h, List.drop_eq_nil_of_le hi2]
      rfl

theorem ResetStatusRegErrors_eq (cap : List PciCapabilities) (fuel : Nat)
    (hcap : cap.length < UINT16_SIZE) (hfuel : cap.length < fuel) :
    ResetStatusRegErrors cap fuel =
      some (Event.Write Reg.PCISPC_STS 0xffff :: cap.flatMap capWrites) := by
  unfold ResetStatusRegErrors
  rw [ResetStatusRegErrors.loop_eq cap hcap fuel 0 (Nat.zero_le _) (by omega)]
  simp

/-! ### `GetStatusRegErrors` -/

theorem checkStatusReg_fst (undef : Nat → Int) (regs : Registers)
    (mErrRegs : ErrorRegs) (reg desc : Reg) :
    (checkStatusReg undef regs reg desc (maskOf mErrRegs reg)).1 = false ↔
      Offends regs mErrRegs reg := by
  unfold checkStatusReg Offends
  cases hread : Read regs reg with
  | none => simp
  | some V =>
    by_cases hV : V = V &&& not64 (toU64 (maskOf mErrRegs reg))
    · simp [← hV]
    · have hV2 : ¬ (V &&& not64 (toU64 (maskOf mErrRegs reg)) = V) := fun h => hV h.symm
      simp [hV, hV2]

theorem andThen_spec (blk : Bool × List Event) (rest : Option (Bool × List Event))
    (P Q : Prop) (hblk : blk.1 = false ↔ P)
    (hrest : ∃ b t, rest = some (b, t) ∧ (b = false ↔ Q)) :
    ∃ b t, andThen blk rest = some (b, t) ∧ (b = false ↔ P ∨ Q) := by
  obtain ⟨b, t, hr, hb⟩ := hrest
  unfold andThen
  cases h1 : blk.1 with
  | true =>
    have hP : ¬ P := fun hp => by simp [hblk.mpr hp] at h1
    exact ⟨b, blk.2 ++ t, by simp [hr], by simp [hb, hP]⟩
  | false =>
    exact ⟨false, blk.2, by simp, by simp [hblk.mp h1]⟩

theorem or_absorb_first (A B C M : Prop) :
    (A ∨ (M ∧ A) ∨ B ∨ C) ↔ (A ∨ B ∨ C) := by
  tauto

theorem or_absorb_second (A B C M : Prop) :
    (B ∨ A ∨ (M ∧ B) ∨ C) ↔ (A ∨ B ∨ C) := by
  tauto

theorem GetStatusRegErrors.loop_succ (undef : Nat → Int) (regs : Registers)
    (mErrRegs : ErrorRegs) (cap : List PciCapabilities) (fuel i : Nat)
    (h : i < cap.length) :
    GetStatusRegErrors.loop undef regs mErrRegs cap (fuel + 1) i =
      match cap[i] with
      | PciCapabilities.PCICAP_PXCAP =>
        andThen
          (checkStatusReg undef regs Reg.PCISPC_PXDS Reg.PCISPC_PXDS
            (maskOf mErrRegs Reg.PCISPC_PXDS))
          (GetStatusRegErrors.loop undef regs mErrRegs cap fuel
            ((i + 1) % UINT16_SIZE))
      | PciCapabilities.PCICAP_AERCAP =>
        andThen
          (checkStatusReg undef regs Reg.PCISPC_AERUCES Reg.PCISPC_PXDS
            (maskOf mErrRegs Reg.PCISPC_AERUCES))
          (GetStatusRegErrors.loop undef regs mErrRegs cap fuel
            ((i + 1) % UINT16_SIZE))
      | PciCapabilities.PCICAP_OTHER _ =>
        GetStatusRegErrors.loop undef regs mErrRegs cap fuel ((i + 1) % UINT16_SIZE) := by
  rw [GetStatusRegErrors.loop, dif_pos h]
  rfl

theorem GetStatusRegErrors.loop_exit (undef : Nat → Int) (regs : Registers)
    (mErrRegs : ErrorRegs) (cap : List PciCapabilities) (fuel i : Nat)
    (h : ¬ i < cap.length) :
    GetStatusRegErrors.loop undef regs mErrRegs cap (fuel + 1) i =
      some (checkStatusReg undef regs Reg.CTLSPC_CSTS Reg.CTLSPC_CSTS
        (maskOf mErrRegs Reg.CTLSPC_CSTS)) := by
  rw [GetStatusRegErrors.loop, dif_neg h]
  rfl

theorem GetStatusRegErrors.loop_spec (undef : Nat → Int) (regs : Registers)
    (mErrRegs : ErrorRegs) (cap : List PciCapabilities)
    (hcap : cap.length < UINT16_SIZE) :
    ∀ fuel i, i ≤ cap.length → cap.length - i < fuel →
      ∃ b t, GetStatusRegErrors.loop undef regs mErrRegs cap fuel i = some (b, t) ∧
        (b = false ↔
          (PciCapabilities.PCICAP_PXCAP ∈ cap.drop i ∧
              Offends regs mErrRegs Reg.PCISPC_PXDS) ∨
            (PciCapabilities.PCICAP_AERCAP ∈ cap.drop i ∧
              Offends regs mErrRegs Reg.PCISPC_AERUCES) ∨
            Offends regs mErrRegs Reg.CTLSPC_CSTS) := by
  intro fuel
  induction fuel with
  | zero => intro i _ h; omega
  | succ fuel ih =>
    intro i hi hfuel
    by_cases h : i < cap.length
    · have hmod : (i + 1) % UINT16_SIZE = i + 1 := Nat.mod_eq_of_lt (by omega)
      have hdrop : cap.drop i = cap[i] :: cap.drop (i + 1) := List.drop_eq_getElem_cons h
      have hrec := ih (i + 1) (by omega) (by omega)
      rw [GetStatusRegErrors.loop_succ undef regs mErrRegs cap fuel i h, hmod, hdrop]
      generalize cap[i] = c
      cases c with
      | PCICAP_PXCAP =>
        obtain ⟨b, t, hbt, hb⟩ := andThen_spec _ _ _ _
          (checkStatusReg_fst undef regs mErrRegs Reg.PCISPC_PXDS Reg.PCISPC_PXDS) hrec
        refine ⟨b, t, hbt, ?_⟩
        rw [hb]
        simp only [List.mem_cons, true_or, true_and, false_or, reduceCtorEq]
        exact or_absorb_first _ _ _ _
      | PCICAP_AERCAP =>
        obtain ⟨b, t, hbt, hb⟩ := andThen_spec _ _ _ _
          (checkStatusReg_fst undef regs mErrRegs Reg.PCISPC_AERUCES Reg.PCISPC_PXDS) hrec
        refine ⟨b, t, hbt, ?_⟩
        rw [hb]
        simp only [List.mem_cons, true_or, true_and, false_or, reduceCtorEq]
        exact or_absorb_second _ _ _ _
      | PCICAP_OTHER n =>
        obtain ⟨b, t, hbt, hb⟩ := hrec
        refine ⟨b, t, hbt, ?_⟩
        rw [hb]
        simp only [List.mem_cons, false_or, reduceCtorEq]
    · have hi2 : cap.length ≤ i := by omega
      rw [GetStatusRegErrors.loop_exit undef regs mErrRegs cap fuel i h,
        List.drop_eq_nil_of_le hi2]
      refine ⟨(checkStatusReg undef regs Reg.CTLSPC_CSTS Reg.CTLSPC_CSTS
          (maskOf mErrRegs Reg.CTLSPC_CSTS)).1,
        (checkStatusReg undef regs Reg.CTLSPC_CSTS Reg.CTLSPC_CSTS
          (maskOf mErrRegs Reg.CTLSPC_CSTS)).2, rfl, ?_⟩
      rw [checkStatusReg_fst undef regs mErrRegs Reg.CTLSPC_CSTS Reg.CTLSPC_CSTS]
      simp

theorem GetStatusRegErrors_spec (undef : Nat → Int) (regs : Registers)
    (mErrRegs : ErrorRegs) (cap : List PciCapabilities) (fuel : Nat)
    (hcap : cap.length < UINT16_SIZE) (hfuel : cap.length < fuel) :
    ∃ b t, GetStatusRegErrors undef regs mErrRegs cap fuel = some (b, t) ∧
      (b = false ↔ ∃ reg, Monitored cap reg ∧ Offends regs mErrRegs reg) := by
  obtain ⟨b, t, hbt, hb⟩ := andThen_spec _ _ _ _
    (checkStatusReg_fst undef regs mErrRegs Reg.PCISPC_STS Reg.PCISPC_STS)
    (GetStatusRegErrors.loop_spec undef regs mErrRegs cap hcap fuel 0 (Nat.zero_le _)
      (by omega))
  refine ⟨b, t, hbt, ?_⟩
  rw [hb, List.drop_zero]
  constructor
  · rintro (h | h | h | h)
    · exact ⟨Reg.PCISPC_STS, trivial, h⟩
    · exact ⟨Reg.PCISPC_PXDS, h.1, h.2⟩
    · exact ⟨Reg.PCISPC_AERUCES, h.1, h.2⟩
    · exact ⟨Reg.CTLSPC_CSTS, trivial, h⟩
  · rintro ⟨reg, hm, ho⟩
    cases reg with
    | PCISPC_STS => exact Or.inl ho
    | PCISPC_PXDS => exact Or.inr (Or.inl ⟨hm, ho⟩)
    | PCISPC_AERUCES => exact Or.inr (Or.inr (Or.inl ⟨hm, ho⟩))
    | CTLSPC_CSTS => exact Or.inr (Or.inr (Or.inr ho))

/-- C1: for every error mask, every register file and every reported capability
list (short enough for the `uint16_t` loop index, with fuel for the loop),
`GetStatusRegErrors` returns, and it returns `false` if and only if some
monitored register fails to read or reads a value `V` with `(V & ~M) != V` for
its mask `M`; otherwise it returns `true`. -/
theorem GetStatusRegErrors_false_iff (undef : Nat → Int) (regs : Registers)
    (mErrRegs : ErrorRegs) (cap : List PciCapabilities) (fuel : Nat)
    (hcap : cap.length < UINT16_SIZE) (hfuel : cap.length < fuel) :
    ∃ b, GetStatusRegErrors.result undef regs mErrRegs cap fuel = some b ∧
      (b = false ↔ ∃ reg, Monitored cap reg ∧ Offends regs mErrRegs reg) ∧
      (b = true ↔ ¬ ∃ reg, Monitored cap reg ∧ Offends regs mErrRegs reg) := by
  obtain ⟨b, t, hbt, hb⟩ := GetStatusRegErrors_spec undef regs mErrRegs cap fuel hcap hfuel
  refine ⟨b, by simp [GetStatusRegErrors.result, hbt], hb, ?_⟩
  rw [← hb]
  cases b <;> simp

/-- Witness of C1: `PCISPC_STS` reads 1 under the mask 1, `PCICAP_PXCAP` is
reported. -/
theorem GetStatusRegErrors_false_iff_witness :
    ([PciCapabilities.PCICAP_PXCAP].length < UINT16_SIZE ∧
        [PciCapabilities.PCICAP_PXCAP].length < 2) ∧
      ∃ b, GetStatusRegErrors.result x86Shift regsStsOne ⟨1, 0, 0, 0⟩
          [PciCapabilities.PCICAP_PXCAP] 2 = some b ∧
        (b = false ↔ ∃ reg, Monitored [PciCapabilities.PCICAP_PXCAP] reg ∧
          Offends regsStsOne ⟨1, 0, 0, 0⟩ reg) ∧
        (b = true ↔ ¬ ∃ reg, Monitored [PciCapabilities.PCICAP_PXCAP] reg ∧
          Offends regsStsOne ⟨1, 0, 0, 0⟩ reg) :=
  ⟨⟨by decide, by decide⟩,
    GetStatusRegErrors_false_iff x86Shift regsStsOne ⟨1, 0, 0, 0⟩
      [PciCapabilities.PCICAP_PXCAP] 2 (by decide) (by decide)⟩

/-! ### The meaning of a mask bit -/

theorem Read_lt (regs : Registers) (reg : Reg) (V : Nat)
    (h : Read regs reg = some V) : V < UINT64_SIZE := by
  unfold Read at h
  cases hr : regs reg with
  | none => simp [hr] at h
  | some x =>
    simp [hr, toU64] at h
    rw [← h]
    exact Nat.mod_lt _ (by decide)

theorem land_not64_eq_iff (V m : Nat) (hV : V < UINT64_SIZE) :
    V &&& not64 m = V ↔ V &&& (m % UINT64_SIZE) = 0 := by
  have hm : m % UINT64_SIZE < 2 ^ 64 := Nat.mod_lt _ (by decide)
  have hnot : ∀ i, (not64 m).testBit i =
      (decide (i < 64) && !(m % UINT64_SIZE).testBit i) := by
    intro i
    have h := Nat.testBit_two_pow_sub_succ hm i
    have he : not64 m = 2 ^ 64 - (m % UINT64_SIZE + 1) := by
      unfold not64 UINT64_SIZE
      omega
    rw [he, h]
  have hhigh : ∀ i, 64 ≤ i → V.testBit i = false := by
    intro i hi
    apply Nat.testBit_lt_two_pow
    calc V < 2 ^ 64 := hV
      _ ≤ 2 ^ i := Nat.pow_le_pow_right (by decide) hi
  constructor
  · intro h
    apply Nat.eq_of_testBit_eq
    intro i
    have hi := congrArg (fun x => x.testBit i) h
    simp only [Nat.testBit_and, hnot] at hi
    simp only [Nat.testBit_and, Nat.zero_testBit]
    cases hv : V.testBit i <;> cases hb : (m % UINT64_SIZE).testBit i <;> simp_all
  · intro h
    apply Nat.eq_of_testBit_eq
    intro i
    have hi := congrArg (fun x => x.testBit i) h
    simp only [Nat.testBit_and, Nat.zero_testBit] at hi
    simp only [Nat.testBit_and, hnot]
    by_cases h64 : i < 64
    · cases hv : V.testBit i <;> cases hb : (m % UINT64_SIZE).testBit i <;> simp_all
    · simp [hhigh i (by omega)]

theorem Offends_iff (regs : Registers) (mErrRegs : ErrorRegs) (reg : Reg) (V : Nat)
    (h : Read regs reg = some V) :
    Offends regs mErrRegs reg ↔ V &&& toU64 (maskOf mErrRegs reg) ≠ 0 := by
  have hV := Read_lt regs reg V h
  unfold Offends
  rw [h]
  simp only
  rw [not_iff_not, land_not64_eq_iff V _ hV]
  have : toU64 (maskOf mErrRegs reg) % UINT64_SIZE = toU64 (maskOf mErrRegs reg) := by
    unfold toU64
    exact Nat.mod_mod _ _
  rw [this]

/-- C2 (counterexample): with the mask 1 for `PCISPC_STS`, `PCISPC_STS` reading
1, every other register reading 0 and no capability reported, every set bit of
every monitored register lies at a position set in the register's mask, and
`GetStatusRegErrors` returns `false`. -/
theorem GetStatusRegErrors_masked_bit_fails :
    (∀ reg, Monitored [] reg → ∃ V, Read regsStsOne reg = some V ∧
        ∀ i, V.testBit i = true →
          (toU64 (maskOf ⟨1, 0, 0, 0⟩ reg)).testBit i = true) ∧
      GetStatusRegErrors.result x86Shift regsStsOne ⟨1, 0, 0, 0⟩ [] 1 = some false := by
  refine ⟨?_, by decide⟩
  intro reg _
  cases reg with
  | PCISPC_STS => exact ⟨1, by decide, fun i hi => by simpa [maskOf, toU64] using hi⟩
  | PCISPC_PXDS => exact ⟨0, by decide, fun i hi => by simp at hi⟩
  | PCISPC_AERUCES => exact ⟨0, by decide, fun i hi => by simp at hi⟩
  | CTLSPC_CSTS => exact ⟨0, by decide, fun i hi => by simp at hi⟩

/-- C2 (amended): a bit set in the mask marks an error indication that fails the
test.  When every monitored register reads successfully, `GetStatusRegErrors`
returns `true` if and only if no monitored register has a bit set at a position
that is set in its mask. -/
theorem GetStatusRegErrors_true_iff_clear (undef : Nat → Int) (regs : Registers)
    (mErrRegs : ErrorRegs) (cap : List PciCapabilities) (fuel : Nat)
    (hcap : cap.length < UINT16_SIZE) (hfuel : cap.length < fuel)
    (hread : ∀ reg, Monitored cap reg → ∃ V, Read regs reg = some V) :
    ∃ b, GetStatusRegErrors.result undef regs mErrRegs cap fuel = some b ∧
      (b = true ↔ ∀ reg V, Monitored cap reg → Read regs reg = some V →
        V &&& toU64 (maskOf mErrRegs reg) = 0) := by
  obtain ⟨b, t, hbt, hb⟩ := GetStatusRegErrors_spec undef regs mErrRegs cap fuel hcap hfuel
  refine ⟨b, by simp [GetStatusRegErrors.result, hbt], ?_⟩
  constructor
  · intro hbtrue reg V hm hV
    by_contra hne
    have hoff : Offends regs mErrRegs reg := (Offends_iff regs mErrRegs reg V hV).mpr hne
    have : b = false := hb.mpr ⟨reg, hm, hoff⟩
    rw [hbtrue] at this
    exact Bool.noConfusion this
  · intro hall
    cases hbv : b with
    | true => rfl
    | false =>
      obtain ⟨reg, hm, hoff⟩ := hb.mp hbv
      obtain ⟨V, hV⟩ := hread reg hm
      exact absurd (hall reg V hm hV) ((Offends_iff regs mErrRegs reg V hV).mp hoff)

/-- Witness of C2 (amended): every register reads 0, both capabilities are
reported. -/
theorem GetStatusRegErrors_true_iff_clear_witness :
    ([PciCapabilities.PCICAP_PXCAP, PciCapabilities.PCICAP_AERCAP].length < UINT16_SIZE ∧
        [PciCapabilities.PCICAP_PXCAP, PciCapabilities.PCICAP_AERCAP].length < 3 ∧
        ∀ reg, Monitored [PciCapabilities.PCICAP_PXCAP, PciCapabilities.PCICAP_AERCAP] reg →
          ∃ V, Read regsZero reg = some V) ∧
      ∃ b, GetStatusRegErrors.result x86Shift regsZero ⟨0xffff, 0xffff, 0xffffffff, 0xffffffff⟩
          [PciCapabilities.PCICAP_PXCAP, PciCapabilities.PCICAP_AERCAP] 3 = some b ∧
        (b = true ↔ ∀ reg V,
          Monitored [PciCapabilities.PCICAP_PXCAP, PciCapabilities.PCICAP_AERCAP] reg →
          Read regsZero reg = some V →
          V &&& toU64 (maskOf ⟨0xffff, 0xffff, 0xffffffff, 0xffffffff⟩ reg) = 0) :=
  ⟨⟨by decide, by decide, fun _ _ => ⟨0, rfl⟩⟩,
    GetStatusRegErrors_true_iff_clear x86Shift regsZero
      ⟨0xffff, 0xffff, 0xffffffff, 0xffffffff⟩
      [PciCapabilities.PCICAP_PXCAP, PciCapabilities.PCICAP_AERCAP] 3
      (by decide) (by decide) (fun _ _ => ⟨0, rfl⟩)⟩

/-! ### The writes of the baseline reset -/

/-- C9: for every reported capability list (short enough for the `uint16_t` loop
index, with fuel for the loop), `ResetStatusRegErrors` performs exactly these
writes: `0xffff` to `PCISPC_STS`, then, capability by capability in list order,
`0xffff` to `PCISPC_PXDS` for `PCICAP_PXCAP`, `0xffffffff` to `PCISPC_AERUCES` for
`PCICAP_AERCAP`, nothing for any other capability; it accesses no other register,
in particular it never writes `CTLSPC_CSTS`. -/
theorem ResetStatusRegErrors_writes (cap : List PciCapabilities) (fuel : Nat)
    (hcap : cap.length < UINT16_SIZE) (hfuel : cap.length < fuel) :
    ResetStatusRegErrors cap fuel =
        some (Event.Write Reg.PCISPC_STS 0xffff :: cap.flatMap capWrites) ∧
      ∀ t, ResetStatusRegErrors cap fuel = some t →
        (∀ e, e ∈ t → e = Event.Write Reg.PCISPC_STS 0xffff ∨
          e = Event.Write Reg.PCISPC_PXDS 0xffff ∨
          e = Event.Write Reg.PCISPC_AERUCES 0xffffffff) ∧
        ∀ v, Event.Write Reg.CTLSPC_CSTS v ∉ t := by
  have heq := ResetStatusRegErrors_eq cap fuel hcap hfuel
  refine ⟨heq, ?_⟩
  intro t ht
  rw [heq] at ht
  have ht2 : t = Event.Write Reg.PCISPC_STS 0xffff :: cap.flatMap capWrites :=
    (Option.some.inj ht).symm
  have hall : ∀ e, e ∈ t → e = Event.Write Reg.PCISPC_STS 0xffff ∨
      e = Event.Write Reg.PCISPC_PXDS 0xffff ∨
      e = Event.Write Reg.PCISPC_AERUCES 0xffffffff := by
    intro e he
    rw [ht2, List.mem_cons, List.mem_flatMap] at he
    rcases he with he | ⟨c, _, hc⟩
    · exact Or.inl he
    · cases c <;> simp [capWrites] at hc
      · exact Or.inr (Or.inl hc)
      · exact Or.inr (Or.inr hc)
  refine ⟨hall, ?_⟩
  intro v hv
  rcases hall _ hv with h | h | h <;> simp at h

/-- Witness of C9: the list `PCICAP_AERCAP`, another capability, `PCICAP_PXCAP`. -/
theorem ResetStatusRegErrors_writes_witness :
    ([PciCapabilities.PCICAP_AERCAP, PciCapabilities.PCICAP_OTHER 5,
          PciCapabilities.PCICAP_PXCAP].length < UINT16_SIZE ∧
        [PciCapabilities.PCICAP_AERCAP, PciCapabilities.PCICAP_OTHER 5,
          PciCapabilities.PCICAP_PXCAP].length < 4) ∧
      (ResetStatusRegErrors [PciCapabilities.PCICAP_AERCAP, PciCapabilities.PCICAP_OTHER 5,
          PciCapabilities.PCICAP_PXCAP] 4 =
        some [Event.Write Reg.PCISPC_STS 0xffff, Event.Write Reg.PCISPC_AERUCES 0xffffffff,
          Event.Write Reg.PCISPC_PXDS 0xffff] ∧
      ∀ t, ResetStatusRegErrors [PciCapabilities.PCICAP_AERCAP,
          PciCapabilities.PCICAP_OTHER 5, PciCapabilities.PCICAP_PXCAP] 4 = some t →
        (∀ e, e ∈ t → e = Event.Write Reg.PCISPC_STS 0xffff ∨
          e = Event.Write Reg.PCISPC_PXDS 0xffff ∨
          e = Event.Write Reg.PCISPC_AERUCES 0xffffffff) ∧
        ∀ v, Event.Write Reg.CTLSPC_CSTS v ∉ t) :=
  ⟨⟨by decide, by decide⟩,
    ResetStatusRegErrors_writes [PciCapabilities.PCICAP_AERCAP,
      PciCapabilities.PCICAP_OTHER 5, PciCapabilities.PCICAP_PXCAP] 4
      (by decide) (by decide)⟩

/-! ### `Run` -/

theorem capWrites_no_read (cap : List PciCapabilities) (reg : Reg) :
    Event.Read reg ∉ cap.flatMap capWrites := by
  intro h
  rw [List.mem_flatMap] at h
  obtain ⟨c, _, hc⟩ := h
  cases c <;> simp [capWrites] at hc

/-- C5: `Run` lets no exception escape and returns a boolean (for a capability
list short enough for the `uint16_t` loop index, with fuel for the loops;
`ResetStatusRegErrors` contains no statement that throws).  It returns `true` if
and only if the kernel-metrics dump and `RunCoreTest` both return without
throwing and `GetStatusRegErrors` then returns `true`.  When the dump or
`RunCoreTest` throws `FrmwkEx` or anything else, it returns `false` and no
register is read. -/
theorem Run_verdict (undef : Nat → Int) (regs : Registers) (mErrRegs : ErrorRegs)
    (cap : List PciCapabilities) (dumpKernelMetrics runCoreTest : Option Thrown)
    (fuel : Nat) (hcap : cap.length < UINT16_SIZE) (hfuel : cap.length < fuel) :
    ∃ b t, Run undef regs mErrRegs cap dumpKernelMetrics runCoreTest fuel =
        some (Except.ok b, t) ∧
      (b = true ↔ dumpKernelMetrics = none ∧ runCoreTest = none ∧
        GetStatusRegErrors.result undef regs mErrRegs cap fuel = some true) ∧
      ((dumpKernelMetrics ≠ none ∨ runCoreTest ≠ none) →
        b = false ∧ ∀ reg, Event.Read reg ∉ t) := by
  have hreset := ResetStatusRegErrors_eq cap fuel hcap hfuel
  obtain ⟨g, tg, hg, _⟩ := GetStatusRegErrors_spec undef regs mErrRegs cap fuel hcap hfuel
  have hnr := capWrites_no_read cap
  unfold Run Run.tryBlock
  rw [hreset]
  cases dumpKernelMetrics with
  | some e => cases e <;> simp [hnr]
  | none =>
    cases runCoreTest with
    | some e => cases e <;> simp [hnr]
    | none =>
      cases g <;> simp [hg, GetStatusRegErrors.result]

/-- Witness of C5: no capability reported, every register reads 0, the dump
returns and `RunCoreTest` throws `FrmwkEx`. -/
theorem Run_verdict_witness :
    (([] : List PciCapabilities).length < UINT16_SIZE ∧
        ([] : List PciCapabilities).length < 1) ∧
      ∃ b t, Run x86Shift regsZero ⟨0, 0, 0, 0⟩ [] none (some Thrown.FrmwkEx) 1 =
          some (Except.ok b, t) ∧
        (b = true ↔ (none : Option Thrown) = none ∧ some Thrown.FrmwkEx = none ∧
          GetStatusRegErrors.result x86Shift regsZero ⟨0, 0, 0, 0⟩ [] 1 = some true) ∧
        (((none : Option Thrown) ≠ none ∨ some Thrown.FrmwkEx ≠ none) →
          b = false ∧ ∀ reg, Event.Read reg ∉ t) :=
  ⟨⟨by decide, by decide⟩,
    Run_verdict x86Shift regsZero ⟨0, 0, 0, 0⟩ [] none (some Thrown.FrmwkEx) 1
      (by decide) (by decide)⟩

/-! ### `SendCmdToHdw` -/

/-- C6: entered with an empty completion queue, `SendCmdToHdw` returns normally if
and only if the bounded wait reports success, with exactly one pending completion
entry, the reaped entry has the status `CESTAT_LBA_OUT_RANGE`, and, when IRQs are
enabled both globally and on the completion queue, the interrupt count after is
the count before plus 1 (in `uint32_t`); in every other case it throws
`FrmwkEx`. -/
theorem SendCmdToHdw_returns_iff (x : Exchange) (hempty : x.numCE0 = 0) :
    ((SendCmdToHdw x).1 = Except.ok () ↔
        x.waitOk = true ∧ x.numCE = 1 ∧ x.ceStatus = CEStat.CESTAT_LBA_OUT_RANGE ∧
          (x.IrqsEnabled = true → x.GetIrqEnabled = true →
            x.isrCount = (x.isrCountB4 + 1) % UINT32_SIZE)) ∧
      ((SendCmdToHdw x).1 ≠ Except.ok () →
        (SendCmdToHdw x).1 = Except.error Thrown.FrmwkEx) := by
  unfold SendCmdToHdw ReapCE
  simp only [hempty, ne_eq, not_true_eq_false, if_false]
  cases hw : x.waitOk
  · simp
  · by_cases hn : x.numCE = 1
    · by_cases hs : x.ceStatus = CEStat.CESTAT_LBA_OUT_RANGE
      · cases hi : x.IrqsEnabled <;> cases hq : x.GetIrqEnabled <;>
          by_cases hc : x.isrCount = (x.isrCountB4 + 1) % UINT32_SIZE <;>
          simp [hn, hs, hc]
      · simp [hn, hs]
    · simp [hn]

/-- Witness of C6: one entry arrives with the expected status and the interrupt
count wraps from `2 ^ 32 - 1` to 0. -/
theorem SendCmdToHdw_returns_iff_witness :
    (0 : Nat) = 0 ∧
      (((SendCmdToHdw ⟨0, 4294967295, true, 1, 0, CEStat.CESTAT_LBA_OUT_RANGE, true,
            true⟩).1 = Except.ok () ↔
          true = true ∧ 1 = 1 ∧ CEStat.CESTAT_LBA_OUT_RANGE = CEStat.CESTAT_LBA_OUT_RANGE ∧
            (true = true → true = true → 0 = (4294967295 + 1) % UINT32_SIZE)) ∧
        ((SendCmdToHdw ⟨0, 4294967295, true, 1, 0, CEStat.CESTAT_LBA_OUT_RANGE, true,
            true⟩).1 ≠ Except.ok () →
          (SendCmdToHdw ⟨0, 4294967295, true, 1, 0, CEStat.CESTAT_LBA_OUT_RANGE, true,
            true⟩).1 = Except.error Thrown.FrmwkEx)) :=
  ⟨rfl, SendCmdToHdw_returns_iff
    ⟨0, 4294967295, true, 1, 0, CEStat.CESTAT_LBA_OUT_RANGE, true, true⟩ rfl⟩

/-- C7: when the completion queue reports a pending-entry count other than zero
at entry, `SendCmdToHdw` makes the inquiry, dumps the completion queue and throws
`FrmwkEx`; the command is not enqueued, the doorbell is not rung, nothing is
waited for and nothing is reaped. -/
theorem SendCmdToHdw_not_empty (x : Exchange) (hpending : x.numCE0 ≠ 0) :
    SendCmdToHdw x = (Except.error Thrown.FrmwkEx, [QEvent.ReapInquiry, QEvent.DumpCQ]) ∧
      QEvent.Send ∉ (SendCmdToHdw x).2 ∧ QEvent.Ring ∉ (SendCmdToHdw x).2 ∧
      QEvent.ReapInquiryWaitSpecify ∉ (SendCmdToHdw x).2 ∧
      QEvent.ReapCE ∉ (SendCmdToHdw x).2 := by
  have h : SendCmdToHdw x =
      (Except.error Thrown.FrmwkEx, [QEvent.ReapInquiry, QEvent.DumpCQ]) := by
    unfold SendCmdToHdw
    rw [if_pos hpending]
  rw [h]
  simp

/-- Witness of C7: three entries are pending at entry. -/
theorem SendCmdToHdw_not_empty_witness :
    (3 : Nat) ≠ 0 ∧
      (SendCmdToHdw ⟨3, 7, true, 1, 8, CEStat.CESTAT_LBA_OUT_RANGE, true, true⟩ =
          (Except.error Thrown.FrmwkEx, [QEvent.ReapInquiry, QEvent.DumpCQ]) ∧
        QEvent.Send ∉
          (SendCmdToHdw ⟨3, 7, true, 1, 8, CEStat.CESTAT_LBA_OUT_RANGE, true, true⟩).2 ∧
        QEvent.Ring ∉
          (SendCmdToHdw ⟨3, 7, true, 1, 8, CEStat.CESTAT_LBA_OUT_RANGE, true, true⟩).2 ∧
        QEvent.ReapInquiryWaitSpecify ∉
          (SendCmdToHdw ⟨3, 7, true, 1, 8, CEStat.CESTAT_LBA_OUT_RANGE, true, true⟩).2 ∧
        QEvent.ReapCE ∉
          (SendCmdToHdw ⟨3, 7, true, 1, 8, CEStat.CESTAT_LBA_OUT_RANGE, true, true⟩).2) :=
  ⟨by decide, SendCmdToHdw_not_empty
    ⟨3, 7, true, 1, 8, CEStat.CESTAT_LBA_OUT_RANGE, true, true⟩ (by decide)⟩

/-- C8 (counterexample): with one entry pending at entry the calls are the
inquiry and then the completion-queue dump, which is not a prefix of the order
inquiry, enqueue, submission-queue dump, doorbell, wait, completion-queue dump,
reap, IRQ check. -/
theorem SendCmdToHdw_not_prefix :
    (SendCmdToHdw ⟨1, 0, true, 1, 1, CEStat.CESTAT_LBA_OUT_RANGE, true, true⟩).2 =
        [QEvent.ReapInquiry, QEvent.DumpCQ] ∧
      ¬ ((SendCmdToHdw ⟨1, 0, true, 1, 1, CEStat.CESTAT_LBA_OUT_RANGE, true, true⟩).2 <+:
        exchangeOrder) := by
  decide

theorem precedes_of_prefix (a b : QEvent) (t : List QEvent)
    (ht : t <+: exchangeOrder)
    (hfull : Precedes a b exchangeOrder) : Precedes a b t := by
  intro k hk
  obtain ⟨s, hs⟩ := ht
  have hlt : k < t.length := by
    rcases Nat.lt_or_ge k t.length with h | h
    · exact h
    · rw [List.getElem?_eq_none h] at hk
      exact Option.noConfusion hk
  have hk2 : exchangeOrder[k]? = some b := by
    rw [← hs, List.getElem?_append_left hlt]
    exact hk
  obtain ⟨j, hj, hja⟩ := hfull k hk2
  refine ⟨j, hj, ?_⟩
  rw [← hs, List.getElem?_append_left (by omega)] at hja
  exact hja

theorem precedes_exchangeOrder :
    Precedes QEvent.Send QEvent.Ring exchangeOrder ∧
      Precedes QEvent.Ring QEvent.ReapInquiryWaitSpecify exchangeOrder ∧
      Precedes QEvent.ReapInquiryWaitSpecify QEvent.ReapCE exchangeOrder := by
  refine ⟨?_, ?_, ?_⟩
  · intro k hk
    have hk3 : k = 3 := by
      rcases k with _ | _ | _ | _ | _ | _ | _ | _ | k <;> simp [exchangeOrder] at hk ⊢
    subst hk3
    exact ⟨1, by decide, rfl⟩
  · intro k hk
    have hk4 : k = 4 := by
      rcases k with _ | _ | _ | _ | _ | _ | _ | _ | k <;> simp [exchangeOrder] at hk ⊢
    subst hk4
    exact ⟨3, by decide, rfl⟩
  · intro k hk
    have hk6 : k = 6 := by
      rcases k with _ | _ | _ | _ | _ | _ | _ | _ | k <;> simp [exchangeOrder] at hk ⊢
    subst hk6
    exact ⟨4, by decide, rfl⟩

theorem SendCmdToHdw_trace_cases (x : Exchange) :
    (x.numCE0 ≠ 0 ∧ (SendCmdToHdw x).2 = [QEvent.ReapInquiry, QEvent.DumpCQ]) ∨
      (x.numCE0 = 0 ∧ (SendCmdToHdw x).2 = exchangeOrder.take 6) ∨
      (x.numCE0 = 0 ∧ (SendCmdToHdw x).2 = exchangeOrder.take 7) ∨
      (x.numCE0 = 0 ∧ (SendCmdToHdw x).2 = exchangeOrder) := by
  unfold SendCmdToHdw
  by_cases h0 : x.numCE0 ≠ 0
  · exact Or.inl ⟨h0, by rw [if_pos h0]⟩
  · have h0e : x.numCE0 = 0 := not_not.mp h0
    rw [if_neg h0]
    split
    · exact Or.inr (Or.inl ⟨h0e, rfl⟩)
    · split
      · exact Or.inr (Or.inl ⟨h0e, rfl⟩)
      · split
        · exact Or.inr (Or.inr (Or.inl ⟨h0e, rfl⟩))
        · split
          · exact Or.inr (Or.inr (Or.inr ⟨h0e, rfl⟩))
          · exact Or.inr (Or.inr (Or.inr ⟨h0e, rfl⟩))

/-- C8 (amended): in every execution of `SendCmdToHdw` the sequence of calls is a
prefix of the order inquiry, enqueue, submission-queue dump, doorbell, wait,
completion-queue dump, reap, IRQ check, or, when the completion queue is not
empty at entry, it is the inquiry followed by the completion-queue dump.  In
every execution the command is enqueued at most once, the doorbell is rung at most
once, the enqueue precedes the doorbell, the doorbell precedes the wait and the
wait precedes the reap. -/
theorem SendCmdToHdw_order (x : Exchange) :
    ((SendCmdToHdw x).2 <+: exchangeOrder ∨
        (x.numCE0 ≠ 0 ∧ (SendCmdToHdw x).2 = [QEvent.ReapInquiry, QEvent.DumpCQ])) ∧
      (SendCmdToHdw x).2.count QEvent.Send ≤ 1 ∧
      (SendCmdToHdw x).2.count QEvent.Ring ≤ 1 ∧
      Precedes QEvent.Send QEvent.Ring (SendCmdToHdw x).2 ∧
      Precedes QEvent.Ring QEvent.ReapInquiryWaitSpecify (SendCmdToHdw x).2 ∧
      Precedes QEvent.ReapInquiryWaitSpecify QEvent.ReapCE (SendCmdToHdw x).2 := by
  obtain ⟨h1, h2, h3⟩ := precedes_exchangeOrder
  have hnil : ∀ a b, b ≠ QEvent.ReapInquiry → b ≠ QEvent.DumpCQ →
      Precedes a b [QEvent.ReapInquiry, QEvent.DumpCQ] := by
    intro a b hb1 hb2 k hk
    rcases k with _ | _ | k
    · exact absurd (Option.some.inj hk).symm hb1
    · exact absurd (Option.some.inj hk).symm hb2
    · simp at hk
  rcases SendCmdToHdw_trace_cases x with ⟨h0, ht⟩ | ⟨_, ht⟩ | ⟨_, ht⟩ | ⟨_, ht⟩
  · rw [ht]
    exact ⟨Or.inr ⟨h0, rfl⟩, by decide, by decide,
      hnil _ _ (by decide) (by decide), hnil _ _ (by decide) (by decide),
      hnil _ _ (by decide) (by decide)⟩
  · have hp : (SendCmdToHdw x).2 <+: exchangeOrder := by
      rw [ht]; exact List.take_prefix _ _
    refine ⟨Or.inl hp, ?_, ?_, precedes_of_prefix _ _ _ hp h1,
      precedes_of_prefix _ _ _ hp h2, precedes_of_prefix _ _ _ hp h3⟩ <;>
      rw [ht] <;> decide
  · have hp : (SendCmdToHdw x).2 <+: exchangeOrder := by
      rw [ht]; exact List.take_prefix _ _
    refine ⟨Or.inl hp, ?_, ?_, precedes_of_prefix _ _ _ hp h1,
      precedes_of_prefix _ _ _ hp h2, precedes_of_prefix _ _ _ hp h3⟩ <;>
      rw [ht] <;> decide
  · have hp : (SendCmdToHdw x).2 <+: exchangeOrder := by
      rw [ht]
    refine ⟨Or.inl hp, ?_, ?_, precedes_of_prefix _ _ _ hp h1,
      precedes_of_prefix _ _ _ hp h2, precedes_of_prefix _ _ _ hp h3⟩ <;>
      rw [ht] <;> decide

/-! ### `CreateIOQs` -/

/-- C10: `CreateIOQs` issues exactly two queue creations, the completion queue
first and the submission queue second, both with the caller's queue id and with 2
entries; both are the discontiguous routines when `Queues::SupportDiscontigIOQ()`
is true, and both are the contiguous routines otherwise. -/
theorem CreateIOQs_creations (supportDiscontigIOQ : Bool) (cqes sqes ioqId : Nat) :
    (CreateIOQs supportDiscontigIOQ cqes sqes ioqId).filter isCreation =
      if supportDiscontigIOQ = true then
        [ProvEvent.CreateIOCQDiscontigToHdw ioqId 2 true 0
            ((2 * 2 ^ (cqes &&& 0xf)) % UINT32_SIZE),
          ProvEvent.CreateIOSQDiscontigToHdw ioqId 2 ioqId 0
            ((2 * 2 ^ (sqes &&& 0xf)) % UINT32_SIZE)]
      else
        [ProvEvent.CreateIOCQContigToHdw ioqId 2 true 0,
          ProvEvent.CreateIOSQContigToHdw ioqId 2 ioqId 0] := by
  cases supportDiscontigIOQ <;> simp [CreateIOQs, isCreation]

/-! ### The writes of `RunCoreTest` -/

theorem subU64_of_le (a b : Nat) (ha : a < UINT64_SIZE) (hb : b ≤ a) :
    subU64 a b = a - b := by
  unfold subU64
  have hb2 : b < UINT64_SIZE := by omega
  rw [Nat.mod_eq_of_lt ha, Nat.mod_eq_of_lt hb2]
  have h : a + UINT64_SIZE - b = (a - b) + UINT64_SIZE := by omega
  rw [h, Nat.add_mod_right, Nat.mod_eq_of_lt (by omega)]

theorem RunCoreTest.sendWrites_inside (nsid nsze : Nat) (x1 x2 : Exchange)
    (hnsze : nsze < UINT64_SIZE) (h2 : 2 ≤ nsze)
    (hx1 : (SendCmdToHdw x1).1 = Except.ok ()) (hx2 : (SendCmdToHdw x2).1 = Except.ok ()) :
    RunCoreTest.sendWrites nsid nsze x1 x2 none =
        (Except.ok (),
          [IOCall.SendCmdToHdw ⟨nsid, 1, nsze - 1⟩, IOCall.SendCmdToHdw ⟨nsid, 1, nsze⟩,
            IOCall.SendAndReapCmd ⟨nsid, 1, nsze - 2⟩]) ∧
      nsze < (nsze - 1) + 2 ∧ nsze < nsze + 2 ∧ (nsze - 2) + 2 ≤ nsze := by
  refine ⟨?_, by omega, by omega, by omega⟩
  unfold RunCoreTest.sendWrites
  rw [hx1, hx2, subU64_of_le nsze 1 hnsze (by omega), subU64_of_le nsze 2 hnsze h2]
  simp [toU64, Nat.mod_eq_of_lt hnsze, WR_NUM_BLKS]

/-- C11 (defect of the code): for a namespace of size `nsze = 1` whose first two
exchanges end as expected, the three writes of 2 blocks start at 0, at 1 and at
`2 ^ 64 - 1`: `nsze - 2` wraps around in `uint64_t`.  The third write is sent with
`IO::SendAndReapCmd`, which expects success, and its block range is not inside the
namespace: `SLBA + 2 <= nsze` fails. -/
theorem RunCoreTest_sendWrites_nsze_one :
    RunCoreTest.sendWrites 1 1 exchangeOk exchangeOk none =
        (Except.ok (),
          [IOCall.SendCmdToHdw ⟨1, 1, 0⟩, IOCall.SendCmdToHdw ⟨1, 1, 1⟩,
            IOCall.SendAndReapCmd ⟨1, 1, 2 ^ 64 - 1⟩]) ∧
      (IOCall.SendAndReapCmd ⟨1, 1, 2 ^ 64 - 1⟩).expected = CEStat.CESTAT_SUCCESS ∧
      ¬ ((IOCall.SendAndReapCmd ⟨1, 1, 2 ^ 64 - 1⟩).cmd.SLBA + 2 ≤ 1) := by
  refine ⟨?_, rfl, by decide⟩
  simp +decide [RunCoreTest.sendWrites, SendCmdToHdw, ReapCE, exchangeOk, subU64, toU64,
    UINT64_SIZE, UINT32_SIZE, WR_NUM_BLKS]

/-! ### The bit the failure diagnostic reports -/

theorem testBit_not64 (m i : Nat) :
    (not64 m).testBit i = (decide (i < 64) && !(m % UINT64_SIZE).testBit i) := by
  have hm : m % UINT64_SIZE < 2 ^ 64 := Nat.mod_lt _ (by decide)
  have he : not64 m = 2 ^ 64 - (m % UINT64_SIZE + 1) := by
    unfold not64 UINT64_SIZE
    omega
  rw [he, Nat.testBit_two_pow_sub_succ hm i]

theorem exists_lowest_bit (W : Nat) (hW : W ≠ 0) :
    ∃ k, W.testBit k = true ∧ ∀ j, j < k → W.testBit j = false := by
  have hex : ∃ i, W.testBit i = true := Nat.ne_zero_implies_bit_true hW
  refine ⟨Nat.find hex, Nat.find_spec hex, ?_⟩
  intro j hj
  have h := Nat.find_min hex hj
  simpa using h

theorem testBit_lt_of_lt_two_pow (V n k : Nat) (hV : V < 2 ^ n)
    (hk : V.testBit k = true) : k < n := by
  by_contra hge
  have hle : 2 ^ n ≤ 2 ^ k := Nat.pow_le_pow_right (by decide) (by omega)
  have hf : V.testBit k = false := Nat.testBit_lt_two_pow (by omega)
  rw [hf] at hk
  exact Bool.noConfusion hk

/-- C12: for every register value `V` below `2 ^ 32` and every mask with
`V & M != 0`, the bit position `ReportOffendingBitPos(V, V & ~M)` that the failure
diagnostic of `GetStatusRegErrors` logs is the index of the least-significant set
bit of `V & M`, and it is less than 32, whatever the machine yields for the
undefined shifts. -/
theorem checkStatusReg_reports_lowest_bit (undef : Nat → Int) (regs : Registers)
    (reg desc : Reg) (mask V : Nat) (hread : Read regs reg = some V)
    (hV : V < UINT32_SIZE) (hbad : V &&& toU64 mask ≠ 0) :
    ∃ k, k < 32 ∧ (V &&& toU64 mask).testBit k = true ∧
      (∀ j, j < k → (V &&& toU64 mask).testBit j = false) ∧
      ReportOffendingBitPos undef V (V &&& not64 (toU64 mask)) = k ∧
      checkStatusReg undef regs reg desc mask =
        (false, [Event.Read reg, Event.LOG_ERR_bit desc k]) := by
  obtain ⟨k, hk, hlow⟩ := exists_lowest_bit _ hbad
  have hmm : toU64 mask % UINT64_SIZE = toU64 mask := by
    unfold toU64
    exact Nat.mod_mod _ _
  have hVk : V.testBit k = true := by
    rw [Nat.testBit_and] at hk
    cases hv : V.testBit k
    · rw [hv] at hk; simp at hk
    · rfl
  have hMk : (toU64 mask).testBit k = true := by
    rw [Nat.testBit_and, hVk] at hk
    simpa using hk
  have hk32 : k < 32 := testBit_lt_of_lt_two_pow V 32 k hV hVk
  have hdiff : V.testBit k ≠ (V &&& not64 (toU64 mask)).testBit k := by
    rw [Nat.testBit_and, testBit_not64, hmm, hVk, hMk]
    simp
  have hsame : ∀ j, j < k →
      V.testBit j = (V &&& not64 (toU64 mask)).testBit j := by
    intro j hj
    have hj64 : j < 64 := by omega
    have hz := hlow j hj
    rw [Nat.testBit_and] at hz
    rw [Nat.testBit_and, testBit_not64, hmm]
    cases hv : V.testBit j <;> cases hm : (toU64 mask).testBit j <;> simp_all
  have hres : ReportOffendingBitPos undef V (V &&& not64 (toU64 mask)) = k := by
    rw [ReportOffendingBitPos_eq_min undef V _ k (by omega) hdiff hsame]
    exact Nat.min_eq_left (by omega)
  have hV64 : V < UINT64_SIZE := by
    have : UINT32_SIZE ≤ UINT64_SIZE := by decide
    omega
  have hne : V ≠ V &&& not64 (toU64 mask) := by
    intro h
    have h0 := (land_not64_eq_iff V (toU64 mask) hV64).mp h.symm
    rw [hmm] at h0
    exact hbad h0
  refine ⟨k, hk32, hk, hlow, hres, ?_⟩
  unfold checkStatusReg
  rw [hread]
  simp only [hres]
  rw [if_pos hne]

/-- Witness of C12: `CTLSPC_CSTS` reads `0x80000002` under the mask `0x80000000`,
and bit 31 is reported. -/
theorem checkStatusReg_reports_lowest_bit_witness :
    (Read (fun _ => some 0x80000002) Reg.CTLSPC_CSTS = some 0x80000002 ∧
        0x80000002 < UINT32_SIZE ∧ 0x80000002 &&& toU64 0x80000000 ≠ 0) ∧
      ∃ k, k < 32 ∧ (0x80000002 &&& toU64 0x80000000).testBit k = true ∧
        (∀ j, j < k → (0x80000002 &&& toU64 0x80000000).testBit j = false) ∧
        ReportOffendingBitPos x86Shift 0x80000002
          (0x80000002 &&& not64 (toU64 0x80000000)) = k ∧
        checkStatusReg x86Shift (fun _ => some 0x80000002) Reg.CTLSPC_CSTS
            Reg.CTLSPC_CSTS 0x80000000 =
          (false, [Event.Read Reg.CTLSPC_CSTS, Event.LOG_ERR_bit Reg.CTLSPC_CSTS k]) :=
  ⟨⟨by decide, by decide, by decide⟩,
    checkStatusReg_reports_lowest_bit x86Shift (fun _ => some 0x80000002)
      Reg.CTLSPC_CSTS Reg.CTLSPC_CSTS 0x80000000 0x80000002
      (by decide) (by decide) (by decide)⟩

end Tnvme
